import Mathlib

/-!
# Prorated subscription billing (`package challenge`, `assesment.go`)

A shallow embedding of `BillFor` and of the three date helpers
`FirstDayOfMonth`, `LastDayOfMonth` and `NextDay`, together with the parts of
Go's `time` and `math` packages that these functions call.

Conventions of the embedding.

* A `time.Time` is an instant (nanoseconds since 1970-01-01T00:00:00Z, an
  unbounded `Int`) together with a `Location`.  No value in `BillFor` carries a
  monotonic clock reading that is used: `firstDay` and `lastDay` come from
  `time.Date`, which never sets one.
* A `time.Duration` is an `Int` kept inside the range of `int64`; `Time.Sub`
  saturates as Go's does.
* Go's `int` is the 64-bit two's complement integer (`wrapInt64`).
* A `float64` is an IEEE 754 binary64 number with round-to-nearest-even
  arithmetic, each operation rounded on its own (no fused multiply-add).  The
  two zeros are identified.
* `log.Fatal` ends the process; a nil pointer dereference panics.  Both are
  results of `BillFor` in the embedding (`Failure`).
-/

namespace Challenge

/-! ## The proleptic Gregorian calendar of Go's `time` package -/

/-- Number of days from 1970-01-01 to the civil date `y-m-d`, for a month
`m` in `1..12`; `d` may lie outside the month (the count is linear in `d`). -/
def daysFromCivil (y m d : Int) : Int :=
  let y1 := if m ≤ 2 then y - 1 else y
  let era := y1 / 400
  let yoe := y1 - era * 400
  let mp := (m + 9) % 12
  let doy := (153 * mp + 2) / 5 + d - 1
  let doe := yoe * 365 + yoe / 4 - yoe / 100 + doy
  era * 146097 + doe - 719468

/-- Civil date `(year, month, day)` of the day that lies `z` days after
1970-01-01. -/
def civilFromDays (z : Int) : Int × Int × Int :=
  let z1 := z + 719468
  let era := z1 / 146097
  let doe := z1 - era * 146097
  let yoe := (doe - doe / 1460 + doe / 36524 - doe / 146096) / 365
  let doy := doe - (365 * yoe + yoe / 4 - yoe / 100)
  let mp := (5 * doy + 2) / 153
  let d := doy - (153 * mp + 2) / 5 + 1
  let m := if mp < 10 then mp + 3 else mp - 9
  let y := yoe + era * 400
  (if m ≤ 2 then y + 1 else y, m, d)

/-! ## `time.Location` -/

/-- What `(*Location).lookup` reports for an instant: the offset east of UTC in
seconds, whether that zone is daylight-saving time, and the interval
`[start, stop)` of Unix seconds on which the zone applies. -/
structure ZoneInfo where
  offset : Int
  isDST : Bool
  start : Int
  stop : Int

/-- A `time.Location`, given by its name and its zone lookup (a function of
the Unix second). -/
structure Location where
  name : String
  lookup : Int → ZoneInfo

/-- The location `time.UTC`: offset 0, never daylight-saving time, one zone for
all of time (`alpha = -2^63`, `omega = 2^63 - 1`). -/
def UTC : Location :=
  ⟨"UTC", fun _ => ⟨0, false, -9223372036854775808, 9223372036854775807⟩⟩

/-! ## `time.Duration` and Go's `int` -/

/-- A `time.Duration`: a count of nanoseconds. -/
abbrev Duration := Int

def minDuration : Duration := -9223372036854775808
def maxDuration : Duration := 9223372036854775807

def Nanosecond : Duration := 1
def Second : Duration := 1000000000
def Hour : Duration := 3600000000000

/-- Two's complement wrap-around of a 64-bit signed integer operation. -/
def wrapInt64 (x : Int) : Int :=
  (x + 9223372036854775808) % 18446744073709551616 - 9223372036854775808

/-! ## `time.Time` -/

/-- A `time.Time`: an instant and the location it is presented in. -/
structure Time where
  ns : Int
  loc : Location

namespace Time

/-- The zero `time.Time`, January 1, year 1, 00:00:00 UTC. -/
def zero : Time := ⟨-62135596800000000000, UTC⟩

/-- `t.Unix()`: whole seconds since the Unix epoch. -/
def Unix (t : Time) : Int := t.ns / 1000000000

/-- `t.Nanosecond()`: the nanosecond offset within the second. -/
def Nanosecond (t : Time) : Int := t.ns % 1000000000

/-- `t.Location()`. -/
def Location (t : Time) : Location := t.loc

/-- Seconds since the Unix epoch of the wall clock reading of `t` in its
location (`t.abs()`, up to the choice of epoch). -/
def localSec (t : Time) : Int := t.Unix + (t.loc.lookup t.Unix).offset

/-- `t.Year()`. -/
def Year (t : Time) : Int := (civilFromDays (t.localSec / 86400)).1

/-- `t.Month()`, as a number `1..12`. -/
def Month (t : Time) : Int := (civilFromDays (t.localSec / 86400)).2.1

/-- `t.Day()`. -/
def Day (t : Time) : Int := (civilFromDays (t.localSec / 86400)).2.2

/-- `t.Hour()`. -/
def Hour (t : Time) : Int := t.localSec % 86400 / 3600

/-- `t.Minute()`. -/
def Minute (t : Time) : Int := t.localSec % 3600 / 60

/-- `t.Second()`. -/
def Second (t : Time) : Int := t.localSec % 60

/-- `t.IsDST()`: whether `t`, in its location, is in daylight-saving time. -/
def IsDST (t : Time) : Bool := (t.loc.lookup t.Unix).isDST

/-- `t.Before(u)`. -/
def Before (t u : Time) : Bool := decide (t.ns < u.ns)

/-- `t.After(u)`. -/
def After (t u : Time) : Bool := decide (t.ns > u.ns)

/-- `t.Equal(u)`: the same instant, whatever the locations. -/
def Equal (t u : Time) : Bool := decide (t.ns = u.ns)

/-- `t.Add(d)`. -/
def Add (t : Time) (d : Duration) : Time := ⟨t.ns + d, t.loc⟩

/-- `t.Sub(u)`: the duration `t - u`, or the largest (smallest) duration when
the difference does not fit one. -/
def Sub (t u : Time) : Duration :=
  let d := t.ns - u.ns
  if d < minDuration then minDuration
  else if maxDuration < d then maxDuration
  else d

end Time

/-- `time.Date(year, month, day, hour, min, sec, nsec, loc)`.  Values outside
their usual ranges are normalised: the month is carried into the year, and the
day, hour, minute, second and nanosecond enter the instant linearly.  The wall
clock reading is then shifted to UTC by the offset that the location reports,
looked up as Go does (first at the reading itself, then, if that lands outside
the zone found, at the shifted instant). -/
def Date (year month day hour min sec nsec : Int) (loc : Location) : Time :=
  let y := year + (month - 1) / 12
  let m := (month - 1) % 12 + 1
  let days := daysFromCivil y m 1 + (day - 1)
  let wall := (days * 86400 + hour * 3600 + min * 60 + sec) * 1000000000 + nsec
  let unix := wall / 1000000000
  let z := loc.lookup unix
  let offset :=
    if z.offset ≠ 0 then
      let utc := unix - z.offset
      if utc < z.start ∨ utc ≥ z.stop then (loc.lookup utc).offset else z.offset
    else 0
  ⟨wall - offset * 1000000000, loc⟩

/-- `t.AddDate(years, months, days)`. -/
def Time.AddDate (t : Time) (years months days : Int) : Time :=
  Date (t.Year + years) (t.Month + months) (t.Day + days)
    t.Hour t.Minute t.Second t.Nanosecond t.Location

/-! ## `float64` -/

/-- An IEEE 754 binary64 value.  A finite value is `m * 2^e`, kept in the form
where `m` is odd, or `m = 0` and `e = 0`; the two signed zeros are one value. -/
inductive Float64 where
  | fin (m : Int) (e : Int)
  | inf (neg : Bool)
  | nan
deriving DecidableEq, Repr

namespace Float64

/-- Number of binary digits of `n`, by repeated halving (`fuel` bounds the
number of halvings). -/
def bitLenAux : Nat → Nat → Nat
  | 0, _ => 0
  | fuel + 1, n => if n = 0 then 0 else bitLenAux fuel (n / 2) + 1

/-- Number of binary digits of `n`: `bitLen 0 = 0`, `bitLen 5 = 3`. -/
def bitLen (n : Nat) : Nat := bitLenAux n n

/-- Moves factors of two from the mantissa `m` into the exponent `e`. -/
def stripAux : Nat → Nat → Int → Nat × Int
  | 0, m, e => (m, e)
  | fuel + 1, m, e =>
    if m % 2 = 0 ∧ m ≠ 0 then stripAux fuel (m / 2) (e + 1) else (m, e)

/-- The finite value `(-1)^neg * m * 2^e` in its kept form. -/
def mkFin (neg : Bool) (m : Nat) (e : Int) : Float64 :=
  if m = 0 then fin 0 0
  else
    let r := stripAux m m e
    fin (if neg then -(r.1 : Int) else (r.1 : Int)) r.2

/-- The integer nearest to `a / b`, ties going to the even one. -/
def roundHalfEven (a b : Nat) : Nat :=
  let k := a / b
  let r := a % b
  if 2 * r < b then k
  else if b < 2 * r then k + 1
  else if k % 2 = 0 then k else k + 1

/-- Rounding to binary64, to nearest and ties to even, of the positive real
`(a / b) * 2^s` (`a, b > 0`), with the sign `neg` put on the result.  The
value lies in `[2^e, 2^(e+1))`; its unit in the last place is `2^qe`, with 53
significant bits for a normal number and the fixed unit `2^(-1074)` for a
subnormal one; a result of `2^1024` or more is an infinity. -/
def roundPos (neg : Bool) (a b : Nat) (s : Int) : Float64 :=
  let e0 : Int := (bitLen a : Int) - (bitLen b : Int)
  let ge : Bool :=
    if 0 ≤ e0 then decide (b * 2 ^ e0.toNat ≤ a) else decide (b ≤ a * 2 ^ (-e0).toNat)
  let e : Int := (if ge then e0 else e0 - 1) + s
  let qe : Int := max e (-1022) - 52
  let sh : Int := s - qe
  let num : Nat := if 0 ≤ sh then a * 2 ^ sh.toNat else a
  let den : Nat := if 0 ≤ sh then b else b * 2 ^ (-sh).toNat
  let k := roundHalfEven num den
  if 1024 < (bitLen k : Int) + qe then inf neg else mkFin neg k qe

/-- The binary64 value nearest to `m * 2^e`. -/
def ofScaled (m : Int) (e : Int) : Float64 :=
  if m = 0 then fin 0 0 else roundPos (decide (m < 0)) m.natAbs 1 e

/-- The conversion `float64(i)` of an integer. -/
def ofInt (i : Int) : Float64 := ofScaled i 0

instance (n : Nat) : OfNat Float64 n := ⟨ofInt n⟩

/-- Sign of a value: `true` for a negative number. -/
def isNeg : Float64 → Bool
  | fin m _ => decide (m < 0)
  | inf neg => neg
  | nan => false

/-- The sum `x + y`, rounded. -/
def add : Float64 → Float64 → Float64
  | fin m1 e1, fin m2 e2 =>
    let e := min e1 e2
    ofScaled (m1 * 2 ^ (e1 - e).toNat + m2 * 2 ^ (e2 - e).toNat) e
  | fin _ _, inf b => inf b
  | inf a, fin _ _ => inf a
  | inf a, inf b => if a = b then inf a else nan
  | nan, _ => nan
  | _, nan => nan

/-- The product `x * y`, rounded. -/
def mul : Float64 → Float64 → Float64
  | fin m1 e1, fin m2 e2 => ofScaled (m1 * m2) (e1 + e2)
  | fin m _, inf b => if m = 0 then nan else inf (xor (decide (m < 0)) b)
  | inf a, fin m _ => if m = 0 then nan else inf (xor a (decide (m < 0)))
  | inf a, inf b => inf (xor a b)
  | nan, _ => nan
  | _, nan => nan

/-- The quotient `x / y`, rounded.  A zero divisor counts as `+0`. -/
def div : Float64 → Float64 → Float64
  | fin m1 e1, fin m2 e2 =>
    if m2 = 0 then (if m1 = 0 then nan else inf (decide (m1 < 0)))
    else if m1 = 0 then fin 0 0
    else roundPos (xor (decide (m1 < 0)) (decide (m2 < 0))) m1.natAbs m2.natAbs (e1 - e2)
  | fin _ _, inf _ => fin 0 0
  | inf a, fin m _ => inf (xor a (decide (m < 0)))
  | inf _, inf _ => nan
  | nan, _ => nan
  | _, nan => nan

instance : Add Float64 := ⟨add⟩
instance : Mul Float64 := ⟨mul⟩
instance : Div Float64 := ⟨div⟩

/-- `math.Round(x)`: the nearest integer, halves rounded away from zero;
infinities and NaN are returned as they are. -/
def Round : Float64 → Float64
  | fin m e =>
    if 0 ≤ e then fin m e
    else
      let d : Nat := 2 ^ (-e).toNat
      mkFin (decide (m < 0)) ((2 * m.natAbs + d) / (2 * d)) 0
  | inf neg => inf neg
  | nan => nan

/-- The real value of a finite `float64`, as a rational number
(`none` for an infinity or NaN). -/
def toRat : Float64 → Option ℚ
  | fin m e => some ((m : ℚ) * (2 : ℚ) ^ e)
  | _ => none

end Float64

/-- `d.Hours()`:
`hour := d / Hour; nsec := d % Hour; float64(hour) + float64(nsec)/(60*60*1e9)`,
with Go's truncating integer division. -/
def Duration.Hours (d : Duration) : Float64 :=
  let hour := Int.tdiv d Hour
  let nsec := Int.tmod d Hour
  Float64.ofInt hour + Float64.ofInt nsec / Float64.ofInt 3600000000000

/-! ## The helper functions of `assesment.go` -/

/-- `FirstDayOfMonth(t)`:
`time.Date(t.Year(), t.Month(), 1, 0, 0, 0, 0, t.Location())`. -/
def FirstDayOfMonth (t : Time) : Time :=
  Date t.Year t.Month 1 0 0 0 0 t.Location

/-- `LastDayOfMonth(t)`:
`FirstDayOfMonth(t).AddDate(0, 1, 0).Add(-time.Second)`. -/
def LastDayOfMonth (t : Time) : Time :=
  ((FirstDayOfMonth t).AddDate 0 1 0).Add (-Second)

/-- `NextDay(t)`: `t.AddDate(0, 0, 1)`. -/
def NextDay (t : Time) : Time :=
  t.AddDate 0 0 1

/-! ## `time.Parse` with the layout of `BillFor` -/

/-- A `*time.ParseError`.  `Message` is empty when the text does not match the
layout, and names the left-over text when the layout is used up first. -/
structure ParseError where
  Layout : String
  Value : String
  LayoutElem : String
  ValueElem : String
  Message : String
deriving DecidableEq, Repr

/-- `cutspace(s)`: `s` without its leading spaces. -/
def cutspace : List Char → List Char
  | [] => []
  | c :: cs => if c = ' ' then cutspace cs else c :: cs

/-- The loop of `skip(value, prefix)`, one turn per unit of `fuel`: a space in
the prefix stands for any run of spaces in the value, any other character has
to be met as it is.  Gives the text of the value that is left, and whether the
prefix was matched. -/
def skipAux : Nat → List Char → List Char → List Char × Bool
  | 0, value, _ => (value, false)
  | fuel + 1, value, pre =>
    match pre with
    | [] => (value, true)
    | p :: ps =>
      if p = ' ' then
        match value with
        | v :: vs =>
          if v ≠ ' ' then (value, false)
          else skipAux fuel (cutspace (v :: vs)) (cutspace (p :: ps))
        | [] => skipAux fuel [] (cutspace (p :: ps))
      else
        match value with
        | [] => (value, false)
        | v :: vs => if v ≠ p then (value, false) else skipAux fuel vs ps

/-- `skip(value, prefix)`. -/
def skip (value pre : List Char) : List Char × Bool :=
  skipAux (pre.length + 1) value pre

/-- `time.Parse(layout, value)` for a layout in which `nextStdChunk` finds no
element of the reference time, so that the whole layout is literal text.  The
value has to be that text and nothing more; every field then has its default,
and the result is `time.Date(0, January, 1, 0, 0, 0, 0, time.UTC)`.
The `Message` of the extra-text error puts the left-over text between double
quotes as it is, which is what `quote` gives for printable ASCII text without
a double quote or a backslash; the escapes that `quote` writes for other text
are not modelled, and no statement below is about the message of that error. -/
def parseLiteral (layout value : String) : Except ParseError Time :=
  match skip value.data layout.data with
  | (rest, false) => .error ⟨layout, value, layout, String.mk rest, ""⟩
  | (rest, true) =>
    if rest ≠ [] then
      .error ⟨layout, value, "", String.mk rest,
        ": extra text: \"" ++ String.mk rest ++ "\""⟩
    else .ok (Date 0 1 1 0 0 0 0 UTC)

/-! ## `BillFor` -/

structure Subscription where
  Id : Int
  CustomerId : Int
  MonthlyPriceInDollars : Int
deriving DecidableEq, Repr

/-- A `User`.  `DeactivatedOn` is a `time.Time` value, so a user who was never
deactivated carries some time there too (the zero time when the field is left
out). -/
structure User where
  Id : Int
  Name : String
  ActivatedOn : Time
  DeactivatedOn : Time
  CustomerId : Int

/-- How a call of `BillFor` ends when it does not return: `log.Fatal(err)` has
printed the parse error and ended the process, or `*users` was evaluated on a
nil pointer. -/
inductive Failure where
  | fatal (err : ParseError)
  | nilDereference
deriving DecidableEq, Repr

/-- Body of the `for _, user := range *users` loop: the new `totalCost`. -/
def billUser (month firstDay lastDay : Time) (daysInMonth dailyRate : Float64)
    (totalCost : Float64) (user : User) : Float64 :=
  let dDate := user.DeactivatedOn
  let aDate := user.ActivatedOn
  if dDate.IsDST then
    if dDate.Before month then
      totalCost + 0
    else
      let activeDays : Float64 := Float64.ofInt (dDate.Sub firstDay) + 1
      totalCost + activeDays * dailyRate
  else if aDate.After firstDay || aDate.Equal firstDay && aDate.Before lastDay then
    let activeDays : Int := wrapInt64 (aDate.Sub lastDay + 1)
    totalCost + Float64.ofInt activeDays * dailyRate
  else
    totalCost + daysInMonth * dailyRate

/-- The `totalCost` that the loop of `BillFor` has accumulated when it ends. -/
def totalCostOf (month firstDay lastDay : Time) (daysInMonth dailyRate : Float64)
    (users : List User) : Float64 :=
  users.foldl (billUser month firstDay lastDay daysInMonth dailyRate) 0

/-- `BillFor` from the point where `month` has been parsed. -/
def billForMonth (month : Time) (activeSubscription : Option Subscription)
    (users : Option (List User)) : Except Failure Float64 :=
  let firstDay := FirstDayOfMonth month
  let lastDay := LastDayOfMonth month
  let daysInMonth := Duration.Hours (lastDay.Sub firstDay)
  match activeSubscription with
  | none => .ok 0
  | some sub =>
    let cost := sub.MonthlyPriceInDollars
    let dailyRate : Float64 := 0 + Float64.ofInt cost / daysInMonth
    match users with
    | none => .error Failure.nilDereference
    | some us =>
      .ok (Float64.Round (totalCostOf month firstDay lastDay daysInMonth dailyRate us))

deriving instance DecidableEq for Except

/-- `BillFor(yearMonth, activeSubscription, users)`.  The two pointer arguments
are options (`none` for nil). -/
def BillFor (yearMonth : String) (activeSubscription : Option Subscription)
    (users : Option (List User)) : Except Failure Float64 :=
  match parseLiteral "%m" yearMonth with
  | .error err => .error (Failure.fatal err)
  | .ok month => billForMonth month activeSubscription users

/-! ## Vocabulary of the specification -/

/-- A month string of the documented form `YYYY-MM`: four digits, a hyphen and
a two-digit month from `01` to `12`. -/
def wellFormedMonth (s : String) : Bool :=
  match s.data with
  | [y1, y2, y3, y4, h, m1, m2] =>
    y1.isDigit && y2.isDigit && y3.isDigit && y4.isDigit && h == '-' &&
      ((m1 == '0' && m2.isDigit && m2 != '0') ||
       (m1 == '1' && (m2 == '0' || m2 == '1' || m2 == '2')))
  | _ => false

/-- The leap-year rule of the Gregorian calendar. -/
def isLeap (y : Int) : Bool := y % 4 = 0 ∧ (y % 100 ≠ 0 ∨ y % 400 = 0)

/-- Number of days of month `m` (`1..12`) of year `y`: 28 or 29 for February,
30 for April, June, September and November, 31 otherwise. -/
def daysIn (y m : Int) : Int :=
  if m = 2 then (if isLeap y then 29 else 28)
  else if m = 4 ∨ m = 6 ∨ m = 9 ∨ m = 11 then 30 else 31

/-- A location with one offset for all of time: `time.UTC` (offset 0) or a
`time.FixedZone`. -/
def Location.FixedOffset (l : Location) (o : Int) : Prop :=
  ∀ u, (l.lookup u).offset = o

/-- The location reports the offset `o` at the Unix second `w` and at the Unix
second `w - o`: the two instants at which `time.Date` looks up the zone for a
wall clock reading of `w` seconds, when that reading exists with offset `o`.
It holds at every `w` in a location with the fixed offset `o`, and in a
location with zone transitions whenever none lies between `w - o` and `w`. -/
def Location.SteadyAt (l : Location) (w o : Int) : Prop :=
  (l.lookup w).offset = o ∧ (l.lookup (w - o)).offset = o

/-- The zone transitions of `Asia/Amman` in 2016: standard time (UTC+2) until
2016-03-31 22:00 UTC, when the clocks went from 00:00 of 1 April to 01:00,
daylight-saving time (UTC+3) until 2016-10-27 22:00 UTC, standard time
after. -/
def amman2016 : Location :=
  ⟨"Asia/Amman", fun u =>
    if u < 1459461600 then ⟨7200, false, -9223372036854775808, 1459461600⟩
    else if u < 1477605600 then ⟨10800, true, 1459461600, 1477605600⟩
    else ⟨7200, false, 1477605600, 9223372036854775807⟩⟩

/-- The zone transitions of `America/Asuncion` in 2023: daylight-saving time
(UTC-3) until 2023-03-26 03:00 UTC, standard time (UTC-4) until 2023-10-01
04:00 UTC, when the clocks went from 00:00 to 01:00, daylight-saving time
after. -/
def asuncion2023 : Location :=
  ⟨"America/Asuncion", fun u =>
    if u < 1679799600 then ⟨-10800, true, -9223372036854775808, 1679799600⟩
    else if u < 1696132800 then ⟨-14400, false, 1679799600, 1696132800⟩
    else ⟨-10800, true, 1696132800, 9223372036854775807⟩⟩

/-- The zone transitions of `America/St_Johns` in 2009: standard time
(UTC-3:30) until 2009-03-08 03:31 UTC, daylight-saving time (UTC-2:30) until
2009-11-01 02:31 UTC, when the clocks went from 00:01 back to 23:01 of
31 October, standard time after. -/
def stJohns2009 : Location :=
  ⟨"America/St_Johns", fun u =>
    if u < 1236483060 then ⟨-12600, false, -9223372036854775808, 1236483060⟩
    else if u < 1257042660 then ⟨-9000, true, 1236483060, 1257042660⟩
    else ⟨-12600, false, 1257042660, 9223372036854775807⟩⟩

/-- Two user records that differ at most in `DeactivatedOn`, and there only
between two times that are not in daylight-saving time (as every UTC time and
the zero time are). -/
def sameButDeactivation (u v : User) : Prop :=
  u.Id = v.Id ∧ u.Name = v.Name ∧ u.ActivatedOn = v.ActivatedOn ∧
    u.CustomerId = v.CustomerId ∧
    (u.DeactivatedOn = v.DeactivatedOn ∨
      (u.DeactivatedOn.IsDST = false ∧ v.DeactivatedOn.IsDST = false))

set_option maxRecDepth 100000

/-! ## The inputs named in the documentation and in the specification -/

/-- Midnight UTC of a civil date: `time.Date(y, m, d, 0, 0, 0, 0, time.UTC)`. -/
def utcDay (y m d : Int) : Time := Date y m d 0 0 0 0 UTC

/-- The subscription of the end-to-end example: 30 dollars per user and month. -/
def subscription30 : Subscription := ⟨763, 328, 30⟩

/-- `Employee #1` of the doc comment of `BillFor`: activated 2021-11-04,
deactivated 2022-04-10. -/
def employee1 : User := ⟨1, "Employee #1", utcDay 2021 11 4, utcDay 2022 4 10, 1⟩

/-- `Employee #2` of the doc comment of `BillFor`: activated 2021-12-04, not
deactivated (the field holds the zero time). -/
def employee2 : User := ⟨2, "Employee #2", utcDay 2021 12 4, Time.zero, 1⟩

/-- A user who is activated at `activated` and has not been deactivated. -/
def activeSince (activated : Time) : User := ⟨3, "Employee #3", activated, Time.zero, 1⟩

/-- The error that `time.Parse("%m", value)` reports when `value` does not
start with the layout text. -/
def mismatch (value : String) : ParseError := ⟨"%m", value, "%m", value, ""⟩

/-! ## Facts about parsing -/

theorem parseLiteral_layout :
    parseLiteral "%m" "%m" = .ok (Date 0 1 1 0 0 0 0 UTC) := rfl

theorem parseLiteral_other (ym : String) (h : ym ≠ "%m") :
    ∃ err, parseLiteral "%m" ym = .error err := by
  obtain ⟨l⟩ := ym
  have hl : l ≠ ['%', 'm'] := fun e => h (by rw [e])
  have hd : ("%m" : String).data = ['%', 'm'] := rfl
  unfold parseLiteral
  rw [hd]
  match l, hl with
  | [], _ => exact ⟨_, rfl⟩
  | [v], _ =>
    by_cases hv : v = '%'
    · subst hv; exact ⟨_, rfl⟩
    · simp [skip, skipAux, hv]
  | [v, w], hvw =>
    by_cases hv : v = '%'
    · by_cases hw : w = 'm'
      · subst hv; subst hw; exact absurd rfl hvw
      · subst hv; simp [skip, skipAux, hw]
    · simp [skip, skipAux, hv]
  | v :: w :: x :: xs, _ =>
    by_cases hv : v = '%'
    · by_cases hw : w = 'm'
      · subst hv; subst hw; simp [skip, skipAux]
      · subst hv; simp [skip, skipAux, hw]
    · simp [skip, skipAux, hv]

theorem wellFormedMonth_ne_layout (ym : String) (h : wellFormedMonth ym = true) :
    ym ≠ "%m" := by
  intro e
  subst e
  exact absurd h (by decide)

theorem BillFor_of_parse_error (ym : String) (err : ParseError)
    (h : parseLiteral "%m" ym = .error err) (sub : Option Subscription)
    (users : Option (List User)) :
    BillFor ym sub users = .error (Failure.fatal err) := by
  unfold BillFor
  rw [h]

/-! ## The claims -/

/-- C1 (the call of the end-to-end example does not return 40.00).  On the
documented input, month "2022-04", price 30 and the two employees of the doc
comment, `BillFor` ends in `log.Fatal`: the layout "%m" does not match the
text "2022-04".  Entered after the parse with April 2022 as the month, the
rest of the function bills both employees a full month, 60 dollars and not
40. -/
theorem C1_doc_example_ends_in_fatal :
    BillFor "2022-04" (some subscription30) (some [employee1, employee2])
        = .error (Failure.fatal (mismatch "2022-04")) ∧
      billForMonth (utcDay 2022 4 1) (some subscription30) (some [employee1, employee2])
        = .ok 60 := by
  decide

/-- C2 (billing up to and including the deactivation day).  For April 2022,
price 30, and a user deactivated on day 10, `BillFor` ends in `log.Fatal`
instead of billing 10 dollars; the rest of the function, entered with April
2022, never looks at a UTC deactivation date and bills the full 30 dollars. -/
theorem C2_deactivated_on_day_10 :
    BillFor "2022-04" (some subscription30) (some [employee1])
        = .error (Failure.fatal (mismatch "2022-04")) ∧
      billForMonth (utcDay 2022 4 1) (some subscription30) (some [employee1])
        = .ok 30 := by
  decide

/-- C3 (billing from the activation day).  For April 2022, price 30, and a
user activated on day 10 and never deactivated, `BillFor` ends in `log.Fatal`
instead of billing 21 dollars; the rest of the function, entered with April
2022, counts the nanoseconds from the end of the month back to the activation
and bills a negative amount. -/
theorem C3_activated_on_day_10 :
    BillFor "2022-04" (some subscription30) (some [activeSince (utcDay 2022 4 10)])
        = .error (Failure.fatal (mismatch "2022-04")) ∧
      billForMonth (utcDay 2022 4 1) (some subscription30)
          (some [activeSince (utcDay 2022 4 10)])
        = .ok (Float64.ofInt (-75599987499995)) := by
  decide

/-- C4 (a user active for the whole month is billed the monthly price).  For
April 2022, price 30, and a user activated exactly on day 1 and never
deactivated, `BillFor` ends in `log.Fatal` instead of billing 30 dollars; the
rest of the function, entered with April 2022, sends this user down the
partial-month branch and bills a negative amount. -/
theorem C4_activated_on_day_1 :
    BillFor "2022-04" (some subscription30) (some [activeSince (utcDay 2022 4 1)])
        = .error (Failure.fatal (mismatch "2022-04")) ∧
      billForMonth (utcDay 2022 4 1) (some subscription30)
          (some [activeSince (utcDay 2022 4 1)])
        = .ok (Float64.ofInt (-108000000000000)) := by
  decide

/-- C5 (a user outside the month is billed nothing).  For April 2022 and
price 30, `BillFor` ends in `log.Fatal` for a user who was deactivated in June
2021; the rest of the function, entered with April 2022, bills that user the
full 30 dollars, and bills a user who is activated on 1 May 2022 a positive
amount. -/
theorem C5_user_outside_month :
    BillFor "2022-04" (some subscription30)
          (some [⟨4, "Employee #4", utcDay 2021 1 1, utcDay 2021 6 30, 1⟩])
        = .error (Failure.fatal (mismatch "2022-04")) ∧
      billForMonth (utcDay 2022 4 1) (some subscription30)
          (some [⟨4, "Employee #4", utcDay 2021 1 1, utcDay 2021 6 30, 1⟩])
        = .ok 30 ∧
      billForMonth (utcDay 2022 4 1) (some subscription30)
          (some [activeSince (utcDay 2022 5 1)])
        = .ok 41666683 := by
  decide

/-- C6 (no subscription, no charge).  With a nil subscription `BillFor` ends in
`log.Fatal` on the month "2022-04", because the month is parsed before the
subscription is looked at; it returns 0, for every user list and for the nil
list too, on the one month string that the layout accepts. -/
theorem C6_nil_subscription :
    BillFor "2022-04" none (some []) = .error (Failure.fatal (mismatch "2022-04")) ∧
      ∀ users : Option (List User), BillFor "%m" none users = .ok 0 :=
  ⟨by decide, fun _ => rfl⟩

/-- C7 (no users, no charge).  With an empty user list `BillFor` ends in
`log.Fatal` on the month "2022-04"; it returns 0, for every subscription, on
the one month string that the layout accepts. -/
theorem C7_empty_user_list :
    BillFor "2022-04" (some ⟨763, 328, 4⟩) (some [])
        = .error (Failure.fatal (mismatch "2022-04")) ∧
      ∀ sub : Subscription, BillFor "%m" (some sub) (some []) = .ok 0 :=
  ⟨by decide, fun _ => rfl⟩

/-- C8 (rounding to cents).  A call on which `BillFor` returns: month text
"%m", price 7812, one user activated at 23:59:59 on 31 January of year 0.  The
accumulated `totalCost` is `5910976717829659 / 2^49`, about 10.500004; the
function returns `math.Round` of it, which is 11, half a dollar and not at most
half a cent away from the total. -/
theorem C8_rounds_to_whole_dollars :
    ∃ total : Float64,
      total =
        totalCostOf (Date 0 1 1 0 0 0 0 UTC) (FirstDayOfMonth (Date 0 1 1 0 0 0 0 UTC))
          (LastDayOfMonth (Date 0 1 1 0 0 0 0 UTC))
          (Duration.Hours ((LastDayOfMonth (Date 0 1 1 0 0 0 0 UTC)).Sub
            (FirstDayOfMonth (Date 0 1 1 0 0 0 0 UTC))))
          (0 + Float64.ofInt 7812 /
            Duration.Hours ((LastDayOfMonth (Date 0 1 1 0 0 0 0 UTC)).Sub
              (FirstDayOfMonth (Date 0 1 1 0 0 0 0 UTC))))
          [activeSince (Date 0 1 31 23 59 59 0 UTC)] ∧
      BillFor "%m" (some ⟨763, 328, 7812⟩) (some [activeSince (Date 0 1 31 23 59 59 0 UTC)])
        = .ok (Float64.Round total) ∧
      total.toRat = some (5910976717829659 / 2 ^ 49) ∧
      (Float64.Round total).toRat = some 11 ∧
      (1 / 200 : ℚ) < |11 - 5910976717829659 / 2 ^ 49| := by
  refine ⟨Float64.fin 5910976717829659 (-49), by decide, by decide, ?_, ?_, ?_⟩
  · simp only [Float64.toRat]
    norm_num
  · have h : Float64.Round (Float64.fin 5910976717829659 (-49)) = Float64.fin 11 0 := by
      decide
    rw [h]
    simp [Float64.toRat]
  · rw [abs_of_pos] <;> norm_num

/-- C9 (a well-formed month never fails).  The opposite holds: for every
month string of the form `YYYY-MM`, every subscription and every user list,
`BillFor` ends in `log.Fatal` with the parse error of `time.Parse`, and returns
no amount. -/
theorem C9_well_formed_month_is_fatal (ym : String) (h : wellFormedMonth ym = true)
    (sub : Option Subscription) (users : Option (List User)) :
    ∃ err, parseLiteral "%m" ym = .error err ∧
      BillFor ym sub users = .error (Failure.fatal err) := by
  obtain ⟨err, he⟩ := parseLiteral_other ym (wellFormedMonth_ne_layout ym h)
  exact ⟨err, he, BillFor_of_parse_error ym err he sub users⟩

/-- C9, at the month of the documentation: "2022-04" with the subscription and
the employees of the doc comment. -/
theorem C9_well_formed_month_is_fatal_witness :
    wellFormedMonth "2022-04" = true ∧
      ∃ err, parseLiteral "%m" "2022-04" = .error err ∧
        BillFor "2022-04" (some subscription30) (some [employee1, employee2])
          = .error (Failure.fatal err) :=
  ⟨by decide, C9_well_formed_month_is_fatal "2022-04" (by decide) _ _⟩

/-- C10, as stated, fails: the text "%m" is not of the form `YYYY-MM`, yet
`BillFor` accepts it and returns the amount 0 for it (here with no
subscription); and on the text "April" the call ends in `log.Fatal`, which ends
the process and hands nothing to the caller. -/
theorem C10_layout_text_is_accepted :
    wellFormedMonth "%m" = false ∧ BillFor "%m" none none = .ok 0 ∧
      wellFormedMonth "April" = false ∧
      BillFor "April" none none = .error (Failure.fatal (mismatch "April")) := by
  decide

/-- C10, amended.  For every month string that is not of the form `YYYY-MM`,
the text "%m" apart, every subscription and every user list, `BillFor` returns
no amount: `time.Parse` reports an error and `log.Fatal` ends the process with
it. -/
theorem C10_malformed_month_is_fatal (ym : String) (_ : wellFormedMonth ym = false)
    (hne : ym ≠ "%m") (sub : Option Subscription) (users : Option (List User)) :
    ∃ err, parseLiteral "%m" ym = .error err ∧
      BillFor ym sub users = .error (Failure.fatal err) := by
  obtain ⟨err, he⟩ := parseLiteral_other ym hne
  exact ⟨err, he, BillFor_of_parse_error ym err he sub users⟩

/-- C10 amended, at the month text "2022-13". -/
theorem C10_malformed_month_is_fatal_witness :
    wellFormedMonth "2022-13" = false ∧ "2022-13" ≠ "%m" ∧
      ∃ err, parseLiteral "%m" "2022-13" = .error err ∧
        BillFor "2022-13" (some subscription30) (some [employee1, employee2])
          = .error (Failure.fatal err) :=
  ⟨by decide, by decide,
    C10_malformed_month_is_fatal "2022-13" (by decide) (by decide) _ _⟩

/-! ## Facts about the calendar -/

theorem yoe_fact (yoe doy : Int) (hy0 : 0 ≤ yoe) (hy1 : yoe ≤ 399) (h0 : 0 ≤ doy) (h1 : doy ≤ 365)
    (hl : doy = 365 → ((yoe + 1) % 4 = 0 ∧ ((yoe + 1) % 100 ≠ 0 ∨ (yoe + 1) % 400 = 0))) :
    (yoe * 365 + yoe / 4 - yoe / 100 + doy
      - (yoe * 365 + yoe / 4 - yoe / 100 + doy) / 1460
      + (yoe * 365 + yoe / 4 - yoe / 100 + doy) / 36524
      - (yoe * 365 + yoe / 4 - yoe / 100 + doy) / 146096) / 365 = yoe := by
  generalize hdoe : yoe * 365 + yoe / 4 - yoe / 100 + doy = doe
  have hg : doe / 1460 = yoe / 4 ∨ doe / 1460 = yoe / 4 + 1 := by omega
  have he : doe / 36524 = yoe / 100 ∨ doe / 36524 = yoe / 100 + 1 := by omega
  have hf : doe / 146096 = 0 ∨ doe / 146096 = 1  := by omega
  rcases hg with hg | hg <;> rcases he with he | he <;> rcases hf with hf | hf <;> omega

theorem civilFromDays_eq (z era doe yoe doy mp : Int)
    (h1 : (z + 719468) / 146097 = era) (h2 : z + 719468 - era * 146097 = doe)
    (h3 : (doe - doe / 1460 + doe / 36524 - doe / 146096) / 365 = yoe)
    (h4 : doe - (365 * yoe + yoe / 4 - yoe / 100) = doy) (h5 : (5 * doy + 2) / 153 = mp) :
    civilFromDays z =
      (if (if mp < 10 then mp + 3 else mp - 9) ≤ 2 then yoe + era * 400 + 1 else yoe + era * 400,
        if mp < 10 then mp + 3 else mp - 9, doy - (153 * mp + 2) / 5 + 1) := by
  subst h1 h2 h3 h4 h5
  rfl

theorem daysFromCivil_boundary (y m : Int) (hm1 : 1 ≤ m) (hm2 : m ≤ 12) :
    daysFromCivil y m (daysIn y m) + 1 =
      if m = 12 then daysFromCivil (y + 1) 1 1 else daysFromCivil y (m + 1) 1 := by
  have hm : m = 1 ∨ m = 2 ∨ m = 3 ∨ m = 4 ∨ m = 5 ∨ m = 6 ∨ m = 7 ∨ m = 8 ∨ m = 9 ∨ m = 10 ∨ m = 11 ∨ m = 12 := by omega
  rcases hm with h | h | h | h | h | h | h | h | h | h | h | h <;> subst h <;>
    simp [daysFromCivil, daysIn, isLeap] <;> (try split) <;> omega


theorem daysIn_bounds (y m d : Int) (hd2 : d ≤ daysIn y m) :
    d ≤ 31 ∧ (m = 2 → d ≤ 29) ∧
      (m = 2 → d = 29 → (y % 4 = 0 ∧ (y % 100 ≠ 0 ∨ y % 400 = 0))) ∧
      (m = 4 ∨ m = 6 ∨ m = 9 ∨ m = 11 → d ≤ 30) := by
  unfold daysIn at hd2
  by_cases h2 : m = 2
  · rw [if_pos h2] at hd2
    by_cases hl : isLeap y = true
    · rw [if_pos hl] at hd2
      simp only [isLeap, decide_eq_true_eq] at hl
      exact ⟨by omega, fun _ => by omega, fun _ _ => hl, fun h => by omega⟩
    · rw [if_neg hl] at hd2
      exact ⟨by omega, fun _ => by omega, fun _ h => by omega, fun h => by omega⟩
  · rw [if_neg h2] at hd2
    split at hd2
    · exact ⟨by omega, fun h => absurd h h2, fun h => absurd h h2, fun _ => hd2⟩
    · exact ⟨by omega, fun h => absurd h h2, fun h => absurd h h2, fun h => by omega⟩

theorem month_facts (m d mp : Int) (hmp : mp = (m + 9) % 12) (hm1 : 1 ≤ m) (hm2 : m ≤ 12)
    (hd1 : 1 ≤ d) (hb1 : d ≤ 31) (hb2 : m = 2 → d ≤ 29)
    (hb4 : m = 4 ∨ m = 6 ∨ m = 9 ∨ m = 11 → d ≤ 30) :
    0 ≤ (153 * mp + 2) / 5 + d - 1 ∧ (153 * mp + 2) / 5 + d - 1 ≤ 365 ∧
      ((153 * mp + 2) / 5 + d - 1 = 365 → m = 2 ∧ d = 29) ∧
      (5 * ((153 * mp + 2) / 5 + d - 1) + 2) / 153 = mp ∧
      (if mp < 10 then mp + 3 else mp - 9) = m := by
  have hm : m = 1 ∨ m = 2 ∨ m = 3 ∨ m = 4 ∨ m = 5 ∨ m = 6 ∨ m = 7 ∨ m = 8 ∨ m = 9 ∨ m = 10 ∨
      m = 11 ∨ m = 12 := by omega
  rcases hm with h | h | h | h | h | h | h | h | h | h | h | h <;>
    refine ⟨by omega, by omega, by omega, by omega, ?_⟩ <;> split <;> omega

theorem daysFromCivil_eq (y m d y1 mp era yoe doy : Int)
    (hy1 : y1 = if m ≤ 2 then y - 1 else y) (hmp : mp = (m + 9) % 12)
    (hera : era = y1 / 400) (hyoe : yoe = y1 - era * 400)
    (hdoy : doy = (153 * mp + 2) / 5 + d - 1) :
    daysFromCivil y m d =
      era * 146097 + (yoe * 365 + yoe / 4 - yoe / 100 + doy) - 719468 := by
  subst hy1 hmp hera hyoe hdoy
  simp only [daysFromCivil]

theorem civil_roundtrip (y m d : Int) (hm1 : 1 ≤ m) (hm2 : m ≤ 12) (hd1 : 1 ≤ d)
    (hd2 : d ≤ daysIn y m) : civilFromDays (daysFromCivil y m d) = (y, m, d) := by
  obtain ⟨hb1, hb2, hb3, hb4⟩ := daysIn_bounds y m d hd2
  obtain ⟨y1, hy1⟩ : ∃ y1, y1 = if m ≤ 2 then y - 1 else y := ⟨_, rfl⟩
  obtain ⟨mp, hmp⟩ : ∃ mp, mp = (m + 9) % 12 := ⟨_, rfl⟩
  obtain ⟨era, hera⟩ : ∃ era, era = y1 / 400 := ⟨_, rfl⟩
  obtain ⟨yoe, hyoe⟩ : ∃ yoe, yoe = y1 - era * 400 := ⟨_, rfl⟩
  obtain ⟨doy, hdoy⟩ : ∃ doy, doy = (153 * mp + 2) / 5 + d - 1 := ⟨_, rfl⟩
  have hy : y1 = y - 1 ∧ m ≤ 2 ∨ y1 = y ∧ 2 < m := by
    split at hy1 <;> omega
  obtain ⟨hdoy0, hdoy1, hdoy2, h5, hmm⟩ := month_facts m d mp hmp hm1 hm2 hd1 hb1 hb2 hb4
  rw [← hdoy] at hdoy0 hdoy1 hdoy2 h5
  have hyoe0 : 0 ≤ yoe := by omega
  have hyoe1 : yoe ≤ 399 := by omega
  have h3 := yoe_fact yoe doy hyoe0 hyoe1 hdoy0 hdoy1
    (by intro h; have := hb3 (hdoy2 h).1 (hdoy2 h).2; omega)
  rw [daysFromCivil_eq y m d y1 mp era yoe doy hy1 hmp hera hyoe hdoy,
    civilFromDays_eq _ era (yoe * 365 + yoe / 4 - yoe / 100 + doy) yoe doy mp
      (by omega) (by omega) h3 (by omega) h5, hmm]
  have hd : doy - (153 * mp + 2) / 5 + 1 = d := by omega
  have hyy : (if m ≤ 2 then yoe + era * 400 + 1 else yoe + era * 400) = y := by
    split <;> omega
  rw [hd, hyy]

theorem daysFromCivil_day (y m d : Int) :
    daysFromCivil y m d = daysFromCivil y m 1 + (d - 1) := by
  simp only [daysFromCivil]
  omega

theorem daysIn_range (y m : Int) : 28 ≤ daysIn y m ∧ daysIn y m ≤ 31 := by
  unfold daysIn
  split
  · split <;> omega
  · split <;> omega

theorem daysIn_december (y : Int) : daysIn y 12 = 31 := by
  simp [daysIn]

/-- Every day number is the day number of a date of the calendar. -/
theorem civil_exists (z : Int) :
    ∃ y m d, 1 ≤ m ∧ m ≤ 12 ∧ 1 ≤ d ∧ d ≤ daysIn y m ∧ daysFromCivil y m d = z := by
  induction z using Int.induction_on with
  | hz => exact ⟨1970, 1, 1, by decide, by decide, by decide, by decide, by decide⟩
  | hp i ih =>
    obtain ⟨y, m, d, hm1, hm2, hd1, hd2, h⟩ := ih
    by_cases hd : d < daysIn y m
    · exact ⟨y, m, d + 1, hm1, hm2, by omega, by omega, by
        rw [daysFromCivil_day] at h ⊢; omega⟩
    · have hdd : d = daysIn y m := by omega
      have hb := daysFromCivil_boundary y m hm1 hm2
      rw [← hdd, h] at hb
      by_cases h12 : m = 12
      · rw [if_pos h12] at hb
        exact ⟨y + 1, 1, 1, by decide, by decide, by decide,
          by have := daysIn_range (y + 1) 1; omega, hb.symm⟩
      · rw [if_neg h12] at hb
        exact ⟨y, m + 1, 1, by omega, by omega, by decide,
          by have := daysIn_range y (m + 1); omega, hb.symm⟩
  | hn i ih =>
    obtain ⟨y, m, d, hm1, hm2, hd1, hd2, h⟩ := ih
    by_cases hd : 1 < d
    · exact ⟨y, m, d - 1, hm1, hm2, by omega, by omega, by
        rw [daysFromCivil_day] at h ⊢; omega⟩
    · have hdd : d = 1 := by omega
      subst hdd
      by_cases h1 : m = 1
      · subst h1
        have hb := daysFromCivil_boundary (y - 1) 12 (by decide) (by decide)
        rw [if_pos rfl, daysIn_december] at hb
        have hy : y - 1 + 1 = y := by omega
        rw [hy, h] at hb
        exact ⟨y - 1, 12, 31, by decide, by decide, by decide,
          by rw [daysIn_december], by omega⟩
      · have hb := daysFromCivil_boundary y (m - 1) (by omega) (by omega)
        rw [if_neg (by omega)] at hb
        have hmm : m - 1 + 1 = m := by omega
        rw [hmm, h] at hb
        exact ⟨y, m - 1, daysIn y (m - 1), by omega, by omega,
          by have := daysIn_range y (m - 1); omega, le_refl _, by omega⟩

/-- The date that `civilFromDays` gives is a date of the calendar, and it has
the day number that was asked for. -/
theorem civil_valid (z : Int) :
    1 ≤ (civilFromDays z).2.1 ∧ (civilFromDays z).2.1 ≤ 12 ∧ 1 ≤ (civilFromDays z).2.2 ∧
      (civilFromDays z).2.2 ≤ daysIn (civilFromDays z).1 (civilFromDays z).2.1 ∧
      daysFromCivil (civilFromDays z).1 (civilFromDays z).2.1 (civilFromDays z).2.2 = z := by
  obtain ⟨y, m, d, hm1, hm2, hd1, hd2, h⟩ := civil_exists z
  have hc := civil_roundtrip y m d hm1 hm2 hd1 hd2
  rw [h] at hc
  rw [hc]
  exact ⟨hm1, hm2, hd1, hd2, h⟩

/-! ## Facts about times in a location with a fixed offset -/

theorem UTC_fixed : UTC.FixedOffset 0 := fun _ => rfl

theorem Date_fixed (l : Location) (o : Int) (h : l.FixedOffset o)
    (y m d hh mi s n : Int) :
    Date y m d hh mi s n l =
      ⟨((daysFromCivil (y + (m - 1) / 12) ((m - 1) % 12 + 1) 1 + (d - 1)) * 86400
          + hh * 3600 + mi * 60 + s) * 1000000000 + n - o * 1000000000, l⟩ := by
  unfold Date
  simp only [h _]
  by_cases ho : o = 0
  · simp [ho]
  · simp only [ne_eq, ho, not_false_eq_true, if_true, ite_self]

theorem localSec_fixed (t : Time) (o : Int) (h : t.loc.FixedOffset o) :
    t.localSec = t.ns / 1000000000 + o := by
  simp only [Time.localSec, Time.Unix, h _]

/-- The fields of a time that is given by a date of the calendar, a second of
the day and a nanosecond of the second. -/
theorem fields_fixed (l : Location) (o : Int) (h : l.FixedOffset o) (y m d r n : Int)
    (hm1 : 1 ≤ m) (hm2 : m ≤ 12) (hd1 : 1 ≤ d) (hd2 : d ≤ daysIn y m)
    (hr1 : 0 ≤ r) (hr2 : r < 86400) (hn1 : 0 ≤ n) (hn2 : n < 1000000000)
    (t : Time)
    (ht : t = ⟨(daysFromCivil y m d * 86400 + r - o) * 1000000000 + n, l⟩) :
    t.Year = y ∧ t.Month = m ∧ t.Day = d ∧ t.Hour = r / 3600 ∧ t.Minute = r % 3600 / 60 ∧
      t.Second = r % 60 ∧ t.Nanosecond = n := by
  have hl : t.loc.FixedOffset o := by rw [ht]; exact h
  have hs : t.localSec = daysFromCivil y m d * 86400 + r := by
    rw [localSec_fixed t o hl, ht]
    show ((daysFromCivil y m d * 86400 + r - o) * 1000000000 + n) / 1000000000 + o = _
    omega
  have hday : t.localSec / 86400 = daysFromCivil y m d := by rw [hs]; omega
  have hc := civil_roundtrip y m d hm1 hm2 hd1 hd2
  refine ⟨?_, ?_, ?_, ?_, ?_, ?_, ?_⟩
  · simp only [Time.Year, hday, hc]
  · simp only [Time.Month, hday, hc]
  · simp only [Time.Day, hday, hc]
  · simp only [Time.Hour, hs]; omega
  · simp only [Time.Minute, hs]; omega
  · simp only [Time.Second, hs]; omega
  · rw [ht]
    show ((daysFromCivil y m d * 86400 + r - o) * 1000000000 + n) % 1000000000 = n
    omega

/-- Every time in a location with a fixed offset is given by its own date,
second of the day and nanosecond. -/
theorem ns_fixed (t : Time) (o : Int) (h : t.loc.FixedOffset o) :
    1 ≤ t.Month ∧ t.Month ≤ 12 ∧ 1 ≤ t.Day ∧ t.Day ≤ daysIn t.Year t.Month ∧
      t.ns = (daysFromCivil t.Year t.Month t.Day * 86400
        + (t.Hour * 3600 + t.Minute * 60 + t.Second) - o) * 1000000000 + t.Nanosecond ∧
      0 ≤ t.Hour * 3600 + t.Minute * 60 + t.Second ∧
      t.Hour * 3600 + t.Minute * 60 + t.Second < 86400 ∧
      0 ≤ t.Nanosecond ∧ t.Nanosecond < 1000000000 := by
  obtain ⟨h1, h2, h3, h4, h5⟩ := civil_valid (t.localSec / 86400)
  have hs := localSec_fixed t o h
  refine ⟨h1, h2, h3, h4, ?_, ?_, ?_, ?_, ?_⟩
  · simp only [Time.Year, Time.Month, Time.Day, h5, Time.Hour, Time.Minute, Time.Second,
      Time.Nanosecond]
    omega
  · simp only [Time.Hour, Time.Minute, Time.Second]; omega
  · simp only [Time.Hour, Time.Minute, Time.Second]; omega
  · simp only [Time.Nanosecond]; omega
  · simp only [Time.Nanosecond]; omega

theorem Date_steady (l : Location) (o y m : Int) (hm1 : 1 ≤ m) (hm2 : m ≤ 12)
    (h : l.SteadyAt (daysFromCivil y m 1 * 86400) o) :
    Date y m 1 0 0 0 0 l = ⟨(daysFromCivil y m 1 * 86400 + 0 - o) * 1000000000 + 0, l⟩ := by
  obtain ⟨ha, hb⟩ := h
  have e1 : y + (m - 1) / 12 = y := by omega
  have e2 : (m - 1) % 12 + 1 = m := by omega
  have e3 : ((daysFromCivil y m 1 + (1 - 1)) * 86400 + 0 * 3600 + 0 * 60 + 0) * 1000000000 + 0
      = daysFromCivil y m 1 * 86400 * 1000000000 := by omega
  have e4 : daysFromCivil y m 1 * 86400 * 1000000000 / 1000000000
      = daysFromCivil y m 1 * 86400 := by omega
  unfold Date
  simp only [e1, e2, e3, e4, ha, hb]
  congr 1
  by_cases ho : o = 0
  · simp [ho]
  · simp only [ne_eq, ho, not_false_eq_true, if_true, ite_self]
    omega

/-- The fields of a time that is given by a date of the calendar, a second of
the day and a nanosecond, in a location that has the offset `o` at that
instant. -/
theorem fields_at (y m d r n o : Int)
    (hm1 : 1 ≤ m) (hm2 : m ≤ 12) (hd1 : 1 ≤ d) (hd2 : d ≤ daysIn y m)
    (hr1 : 0 ≤ r) (hr2 : r < 86400) (hn1 : 0 ≤ n) (hn2 : n < 1000000000)
    (t : Time) (ht : t.ns = (daysFromCivil y m d * 86400 + r - o) * 1000000000 + n)
    (ho : (t.loc.lookup (daysFromCivil y m d * 86400 + r - o)).offset = o) :
    t.Year = y ∧ t.Month = m ∧ t.Day = d ∧ t.Hour = r / 3600 ∧ t.Minute = r % 3600 / 60 ∧
      t.Second = r % 60 ∧ t.Nanosecond = n := by
  have hu : t.Unix = daysFromCivil y m d * 86400 + r - o := by
    simp only [Time.Unix, ht]; omega
  have hs : t.localSec = daysFromCivil y m d * 86400 + r := by
    simp only [Time.localSec, hu, ho]; omega
  have hday : t.localSec / 86400 = daysFromCivil y m d := by rw [hs]; omega
  have hc := civil_roundtrip y m d hm1 hm2 hd1 hd2
  refine ⟨?_, ?_, ?_, ?_, ?_, ?_, ?_⟩
  · simp only [Time.Year, hday, hc]
  · simp only [Time.Month, hday, hc]
  · simp only [Time.Day, hday, hc]
  · simp only [Time.Hour, hs]; omega
  · simp only [Time.Minute, hs]; omega
  · simp only [Time.Second, hs]; omega
  · simp only [Time.Nanosecond, ht]; omega

theorem FirstDayOfMonth_fixed (t : Time) (o : Int) (h : t.loc.FixedOffset o) :
    FirstDayOfMonth t =
      ⟨(daysFromCivil t.Year t.Month 1 * 86400 + 0 - o) * 1000000000 + 0, t.loc⟩ := by
  obtain ⟨h1, h2, -⟩ := ns_fixed t o h
  have e1 : t.Year + (t.Month - 1) / 12 = t.Year := by omega
  have e2 : (t.Month - 1) % 12 + 1 = t.Month := by omega
  unfold FirstDayOfMonth
  rw [Date_fixed t.Location o h, e1, e2]
  show Time.mk _ _ = Time.mk _ _
  congr 1
  omega

theorem nextMonth_start (y m : Int) (hm1 : 1 ≤ m) (hm2 : m ≤ 12) :
    daysFromCivil (y + (m + 1 - 1) / 12) ((m + 1 - 1) % 12 + 1) 1 =
      daysFromCivil y m (daysIn y m) + 1 := by
  rw [daysFromCivil_boundary y m hm1 hm2]
  by_cases h12 : m = 12
  · subst h12
    rw [if_pos rfl]
    rfl
  · have e1 : y + (m + 1 - 1) / 12 = y := by omega
    have e2 : (m + 1 - 1) % 12 + 1 = m + 1 := by omega
    rw [if_neg h12, e1, e2]

theorem LastDayOfMonth_fixed (t : Time) (o : Int) (h : t.loc.FixedOffset o) :
    LastDayOfMonth t =
      ⟨(daysFromCivil t.Year t.Month (daysIn t.Year t.Month) * 86400 + 86399 - o) * 1000000000
        + 0, t.loc⟩ := by
  obtain ⟨h1, h2, -⟩ := ns_fixed t o h
  have hr := daysIn_range t.Year t.Month
  obtain ⟨fy, fm, fd, fh, fmi, fs, fn⟩ :=
    fields_fixed t.loc o h t.Year t.Month 1 0 0 h1 h2 (by decide) (by omega) (by decide)
      (by decide) (by decide) (by decide) (FirstDayOfMonth t) (FirstDayOfMonth_fixed t o h)
  have hloc : (FirstDayOfMonth t).Location = t.loc := by
    rw [FirstDayOfMonth_fixed t o h]; rfl
  unfold LastDayOfMonth Time.AddDate
  rw [fy, fm, fd, fh, fmi, fs, fn, hloc, Date_fixed t.loc o h]
  simp only [Int.add_zero]
  rw [nextMonth_start t.Year t.Month h1 h2]
  show Time.mk _ _ = Time.mk _ _
  congr 1
  simp only [Second]
  omega

theorem NextDay_fixed (t : Time) (o : Int) (h : t.loc.FixedOffset o) :
    NextDay t = ⟨t.ns + 86400000000000, t.loc⟩ := by
  obtain ⟨h1, h2, h3, h4, h5, -⟩ := ns_fixed t o h
  have e1 : t.Year + 0 + (t.Month + 0 - 1) / 12 = t.Year := by omega
  have e2 : (t.Month + 0 - 1) % 12 + 1 = t.Month := by omega
  unfold NextDay Time.AddDate
  rw [Date_fixed t.Location o h, e1, e2]
  show Time.mk _ _ = Time.mk _ _
  congr 1
  rw [daysFromCivil_day] at h5
  omega

/-- The date of the day after day number `z`. -/
theorem civil_succ (z : Int) :
    civilFromDays (z + 1) =
      if (civilFromDays z).2.2 < daysIn (civilFromDays z).1 (civilFromDays z).2.1 then
        ((civilFromDays z).1, (civilFromDays z).2.1, (civilFromDays z).2.2 + 1)
      else if (civilFromDays z).2.1 = 12 then ((civilFromDays z).1 + 1, 1, 1)
      else ((civilFromDays z).1, (civilFromDays z).2.1 + 1, 1) := by
  obtain ⟨hm1, hm2, hd1, hd2, h⟩ := civil_valid z
  generalize (civilFromDays z).1 = y at *
  generalize (civilFromDays z).2.1 = m at *
  generalize (civilFromDays z).2.2 = d at *
  by_cases hd : d < daysIn y m
  · rw [if_pos hd]
    have e : z + 1 = daysFromCivil y m (d + 1) := by
      rw [daysFromCivil_day] at h ⊢; omega
    rw [e]
    exact civil_roundtrip y m (d + 1) hm1 hm2 (by omega) (by omega)
  · have hdd : d = daysIn y m := by omega
    have hb := daysFromCivil_boundary y m hm1 hm2
    rw [← hdd, h] at hb
    rw [if_neg hd, hb]
    by_cases h12 : m = 12
    · rw [if_pos h12, if_pos h12]
      exact civil_roundtrip (y + 1) 1 1 (by decide) (by decide) (by decide)
        (by have := daysIn_range (y + 1) 1; omega)
    · rw [if_neg h12, if_neg h12]
      exact civil_roundtrip y (m + 1) 1 (by omega) (by omega) (by decide)
        (by have := daysIn_range y (m + 1); omega)

/-! ## Facts about the loop of `BillFor` -/

theorem billUser_congr (month firstDay lastDay : Time) (daysInMonth dailyRate : Float64)
    (totalCost : Float64) (u v : User) (h : sameButDeactivation u v) :
    billUser month firstDay lastDay daysInMonth dailyRate totalCost u
      = billUser month firstDay lastDay daysInMonth dailyRate totalCost v := by
  obtain ⟨-, -, ha, -, hd⟩ := h
  rcases hd with hd | ⟨hu, hv⟩
  · simp only [billUser, ha, hd]
  · simp [billUser, ha, hu, hv]

theorem totalCostOf_congr (month firstDay lastDay : Time) (daysInMonth dailyRate : Float64)
    (us vs : List User) (h : List.Forall₂ sameButDeactivation us vs) :
    totalCostOf month firstDay lastDay daysInMonth dailyRate us
      = totalCostOf month firstDay lastDay daysInMonth dailyRate vs := by
  unfold totalCostOf
  generalize (0 : Float64) = acc
  induction h generalizing acc with
  | nil => rfl
  | cons huv _ ih =>
    simp only [List.foldl_cons]
    rw [billUser_congr month firstDay lastDay daysInMonth dailyRate acc _ _ huv]
    exact ih _

/-! ## The claims, continued -/

/-- C11 (the bill is never negative).  A call on which `BillFor` returns: month
text "%m", price 30 and the two employees of the doc comment, each activated
before the deactivation date.  The result is `-1452774615749225 * 2^9`, about
-7.4e17 dollars: for each user the nanoseconds from the end of the month to the
activation overflow `time.Duration` and then `int`, and the count of "active
days" is `-2^63`. -/
theorem C11_negative_bill :
    BillFor "%m" (some subscription30) (some [employee1, employee2])
        = .ok (Float64.fin (-1452774615749225) 9) ∧
      Float64.isNeg (Float64.fin (-1452774615749225) 9) = true ∧
      (Float64.fin (-1452774615749225) 9).toRat = some (-743820603263603200) ∧
      0 ≤ subscription30.MonthlyPriceInDollars ∧
      employee1.ActivatedOn.Before employee1.DeactivatedOn = true := by
  refine ⟨by decide, by decide, ?_, by decide, by decide⟩
  simp only [Float64.toRat]
  norm_num

/-- C12 (`LastDayOfMonth`).  For every UTC time `d`, `LastDayOfMonth d` is a UTC
time in the year and month of `d`, on the day whose number is the length of
that month (`daysIn`: 28 or 29 for February by the leap-year rule, 30 or 31
otherwise), at 23:59:59 with zero nanoseconds. -/
theorem C12_last_day_of_month (d : Time) (h : d.loc = UTC) :
    (LastDayOfMonth d).Year = d.Year ∧ (LastDayOfMonth d).Month = d.Month ∧
      (LastDayOfMonth d).Day = daysIn d.Year d.Month ∧
      (LastDayOfMonth d).Hour = 23 ∧ (LastDayOfMonth d).Minute = 59 ∧
      (LastDayOfMonth d).Second = 59 ∧ (LastDayOfMonth d).Nanosecond = 0 ∧
      (LastDayOfMonth d).loc = UTC := by
  have hf : d.loc.FixedOffset 0 := by rw [h]; exact UTC_fixed
  obtain ⟨h1, h2, -⟩ := ns_fixed d 0 hf
  have hr := daysIn_range d.Year d.Month
  obtain ⟨fy, fm, fd, fh, fmi, fs, fn⟩ :=
    fields_fixed d.loc 0 hf d.Year d.Month (daysIn d.Year d.Month) 86399 0 h1 h2 (by omega)
      (le_refl _) (by decide) (by decide) (by decide) (by decide) (LastDayOfMonth d)
      (LastDayOfMonth_fixed d 0 hf)
  refine ⟨fy, fm, fd, by omega, by omega, by omega, fn, ?_⟩
  rw [LastDayOfMonth_fixed d 0 hf]
  exact h

/-- C12 at the time of the doc comment, 7 February 2019: the result is 28
February 2019, 23:59:59. -/
theorem C12_last_day_of_month_witness :
    (utcDay 2019 2 7).loc = UTC ∧
      ((LastDayOfMonth (utcDay 2019 2 7)).Year = (utcDay 2019 2 7).Year ∧
        (LastDayOfMonth (utcDay 2019 2 7)).Month = (utcDay 2019 2 7).Month ∧
        (LastDayOfMonth (utcDay 2019 2 7)).Day
          = daysIn (utcDay 2019 2 7).Year (utcDay 2019 2 7).Month ∧
        (LastDayOfMonth (utcDay 2019 2 7)).Hour = 23 ∧
        (LastDayOfMonth (utcDay 2019 2 7)).Minute = 59 ∧
        (LastDayOfMonth (utcDay 2019 2 7)).Second = 59 ∧
        (LastDayOfMonth (utcDay 2019 2 7)).Nanosecond = 0 ∧
        (LastDayOfMonth (utcDay 2019 2 7)).loc = UTC) ∧
      (LastDayOfMonth (utcDay 2019 2 7)).ns = (Date 2019 2 28 23 59 59 0 UTC).ns :=
  ⟨rfl, C12_last_day_of_month (utcDay 2019 2 7) rfl, by decide⟩

/-- C13, as stated, fails where midnight of day 1 falls into a zone transition.
In `Asia/Amman` the clocks went from 00:00 to 01:00 on 1 April 2016: no time of
that day reads 00:00:00, and for noon of 15 April 2016 `FirstDayOfMonth` gives
1 April 2016, 01:00, a time of day that is not zero.  In `America/Asuncion` the
clocks went from 00:00 to 01:00 on 1 October 2023: for noon of 15 October 2023
`FirstDayOfMonth` gives 30 September 2023, 23:00, a time in another month, and
applying `FirstDayOfMonth` again gives yet another time. -/
theorem C13_midnight_may_not_exist :
    ((Date 2016 4 15 12 0 0 0 amman2016).Month = 4 ∧
        (FirstDayOfMonth (Date 2016 4 15 12 0 0 0 amman2016)).Month = 4 ∧
        (FirstDayOfMonth (Date 2016 4 15 12 0 0 0 amman2016)).Day = 1 ∧
        (FirstDayOfMonth (Date 2016 4 15 12 0 0 0 amman2016)).Hour = 1) ∧
      ((Date 2023 10 15 12 0 0 0 asuncion2023).Month = 10 ∧
        (FirstDayOfMonth (Date 2023 10 15 12 0 0 0 asuncion2023)).Month = 9 ∧
        (FirstDayOfMonth (Date 2023 10 15 12 0 0 0 asuncion2023)).Day = 30 ∧
        (FirstDayOfMonth (Date 2023 10 15 12 0 0 0 asuncion2023)).Hour = 23 ∧
        (FirstDayOfMonth (FirstDayOfMonth (Date 2023 10 15 12 0 0 0 asuncion2023))).ns
          ≠ (FirstDayOfMonth (Date 2023 10 15 12 0 0 0 asuncion2023)).ns) := by
  decide

/-- C13, amended.  For every time `d`, `FirstDayOfMonth d` has the location of
`d`.  And for every time `d` whose location has one offset `o` at the two
instants at which `time.Date` looks up the zone for midnight of day 1 of the
month of `d` (as UTC, every fixed zone, and a location with daylight-saving
time when no zone transition lies between the two), `FirstDayOfMonth d` has
the year and month of `d`, day 1 and the time of day 00:00:00 with zero
nanoseconds, and `FirstDayOfMonth` applied to it gives it back. -/
theorem C13_first_day_of_month (d : Time) :
    (FirstDayOfMonth d).Location = d.Location ∧
      ∀ o : Int, d.loc.SteadyAt (daysFromCivil d.Year d.Month 1 * 86400) o →
        (FirstDayOfMonth d).Year = d.Year ∧ (FirstDayOfMonth d).Month = d.Month ∧
          (FirstDayOfMonth d).Day = 1 ∧
          (FirstDayOfMonth d).Hour = 0 ∧ (FirstDayOfMonth d).Minute = 0 ∧
          (FirstDayOfMonth d).Second = 0 ∧ (FirstDayOfMonth d).Nanosecond = 0 ∧
          FirstDayOfMonth (FirstDayOfMonth d) = FirstDayOfMonth d := by
  refine ⟨rfl, fun o h => ?_⟩
  obtain ⟨h1, h2, -⟩ := civil_valid (d.localSec / 86400)
  have h1m : 1 ≤ d.Month := h1
  have h2m : d.Month ≤ 12 := h2
  have hr := daysIn_range d.Year d.Month
  have hF : FirstDayOfMonth d
      = ⟨(daysFromCivil d.Year d.Month 1 * 86400 + 0 - o) * 1000000000 + 0, d.loc⟩ :=
    Date_steady d.loc o d.Year d.Month h1m h2m h
  have hns : (FirstDayOfMonth d).ns
      = (daysFromCivil d.Year d.Month 1 * 86400 + 0 - o) * 1000000000 + 0 := by rw [hF]
  have hloc : (FirstDayOfMonth d).loc = d.loc := rfl
  have hoff : ((FirstDayOfMonth d).loc.lookup
      (daysFromCivil d.Year d.Month 1 * 86400 + 0 - o)).offset = o := by
    rw [hloc, Int.add_zero]; exact h.2
  obtain ⟨fy, fm, fd, fh, fmi, fs, fn⟩ :=
    fields_at d.Year d.Month 1 0 0 o h1m h2m (by decide) (by omega) (by decide)
      (by decide) (by decide) (by decide) (FirstDayOfMonth d) hns hoff
  refine ⟨fy, fm, fd, by omega, by omega, by omega, fn, ?_⟩
  show Date (FirstDayOfMonth d).Year (FirstDayOfMonth d).Month 1 0 0 0 0
    (FirstDayOfMonth d).loc = FirstDayOfMonth d
  rw [fy, fm, hloc]
  rfl

/-- C13 amended, in a location with daylight-saving time: noon of 15 June 2023
in `America/Asuncion`, standard time (UTC-4) around 1 June; the result is 1 June
2023, 00:00:00 there.  And at the time of the doc comment, 7 February 2019
UTC, where the result is 1 February 2019, 00:00:00. -/
theorem C13_first_day_of_month_witness :
    asuncion2023.SteadyAt
        (daysFromCivil (Date 2023 6 15 12 0 0 0 asuncion2023).Year
          (Date 2023 6 15 12 0 0 0 asuncion2023).Month 1 * 86400) (-14400) ∧
      ((FirstDayOfMonth (Date 2023 6 15 12 0 0 0 asuncion2023)).Location
          = (Date 2023 6 15 12 0 0 0 asuncion2023).Location ∧
        (FirstDayOfMonth (Date 2023 6 15 12 0 0 0 asuncion2023)).Year
          = (Date 2023 6 15 12 0 0 0 asuncion2023).Year ∧
        (FirstDayOfMonth (Date 2023 6 15 12 0 0 0 asuncion2023)).Month
          = (Date 2023 6 15 12 0 0 0 asuncion2023).Month ∧
        (FirstDayOfMonth (Date 2023 6 15 12 0 0 0 asuncion2023)).Day = 1 ∧
        (FirstDayOfMonth (Date 2023 6 15 12 0 0 0 asuncion2023)).Hour = 0 ∧
        (FirstDayOfMonth (Date 2023 6 15 12 0 0 0 asuncion2023)).Minute = 0 ∧
        (FirstDayOfMonth (Date 2023 6 15 12 0 0 0 asuncion2023)).Second = 0 ∧
        (FirstDayOfMonth (Date 2023 6 15 12 0 0 0 asuncion2023)).Nanosecond = 0 ∧
        FirstDayOfMonth (FirstDayOfMonth (Date 2023 6 15 12 0 0 0 asuncion2023))
          = FirstDayOfMonth (Date 2023 6 15 12 0 0 0 asuncion2023)) ∧
      (FirstDayOfMonth (Date 2023 6 15 12 0 0 0 asuncion2023)).ns
        = (Date 2023 6 1 0 0 0 0 asuncion2023).ns ∧
      UTC.SteadyAt (daysFromCivil (utcDay 2019 2 7).Year (utcDay 2019 2 7).Month 1 * 86400) 0 ∧
      (FirstDayOfMonth (utcDay 2019 2 7)).ns = (utcDay 2019 2 1).ns :=
  ⟨⟨by decide, by decide⟩,
    ⟨(C13_first_day_of_month (Date 2023 6 15 12 0 0 0 asuncion2023)).1,
      (C13_first_day_of_month (Date 2023 6 15 12 0 0 0 asuncion2023)).2 (-14400)
        ⟨by decide, by decide⟩⟩,
    by decide, ⟨rfl, rfl⟩, by decide⟩

/-- C14 (`NextDay`).  For every UTC time `d`, `NextDay d` is a UTC time with the
time of day of `d`, on the day after the day of `d`: the next day of the month
when there is one, day 1 of the next month on the last day of a month before
December, and 1 January of the next year on 31 December. -/
theorem C14_next_day (d : Time) (h : d.loc = UTC) :
    (NextDay d).Hour = d.Hour ∧ (NextDay d).Minute = d.Minute ∧
      (NextDay d).Second = d.Second ∧ (NextDay d).Nanosecond = d.Nanosecond ∧
      (NextDay d).loc = UTC ∧
      (d.Day < daysIn d.Year d.Month →
        (NextDay d).Year = d.Year ∧ (NextDay d).Month = d.Month ∧
          (NextDay d).Day = d.Day + 1) ∧
      (d.Day = daysIn d.Year d.Month → d.Month < 12 →
        (NextDay d).Year = d.Year ∧ (NextDay d).Month = d.Month + 1 ∧ (NextDay d).Day = 1) ∧
      (d.Day = daysIn d.Year d.Month → d.Month = 12 →
        (NextDay d).Year = d.Year + 1 ∧ (NextDay d).Month = 1 ∧ (NextDay d).Day = 1) := by
  have hf : d.loc.FixedOffset 0 := by rw [h]; exact UTC_fixed
  have hn := NextDay_fixed d 0 hf
  have hnf : (NextDay d).loc.FixedOffset 0 := by rw [hn]; exact hf
  have hs := localSec_fixed d 0 hf
  have hs2 : (NextDay d).localSec = d.localSec + 86400 := by
    rw [localSec_fixed (NextDay d) 0 hnf, hs, hn]
    show (d.ns + 86400000000000) / 1000000000 + 0 = _
    omega
  have hday : (NextDay d).localSec / 86400 = d.localSec / 86400 + 1 := by
    rw [hs2]; omega
  have hc := civil_succ (d.localSec / 86400)
  refine ⟨?_, ?_, ?_, ?_, ?_, ?_, ?_, ?_⟩
  · simp only [Time.Hour, hs2]; omega
  · simp only [Time.Minute, hs2]; omega
  · simp only [Time.Second, hs2]; omega
  · rw [hn]
    show (d.ns + 86400000000000) % 1000000000 = d.ns % 1000000000
    omega
  · rw [hn]; exact h
  · intro hlt
    simp only [Time.Year, Time.Month, Time.Day] at hlt ⊢
    rw [hday, hc, if_pos hlt]
    exact ⟨rfl, rfl, rfl⟩
  · intro he hm
    simp only [Time.Year, Time.Month, Time.Day] at he hm ⊢
    rw [hday, hc, if_neg (by omega), if_neg (by omega)]
    exact ⟨rfl, rfl, rfl⟩
  · intro he hm
    simp only [Time.Year, Time.Month, Time.Day] at he hm ⊢
    rw [hday, hc, if_neg (by omega), if_pos hm]
    exact ⟨rfl, rfl, rfl⟩

/-- C14 at the second time of the doc comment, 28 February 2019: the next day
is 1 March 2019, 00:00:00. -/
theorem C14_next_day_witness :
    (utcDay 2019 2 28).loc = UTC ∧
      ((NextDay (utcDay 2019 2 28)).Hour = (utcDay 2019 2 28).Hour ∧
        (NextDay (utcDay 2019 2 28)).Minute = (utcDay 2019 2 28).Minute ∧
        (NextDay (utcDay 2019 2 28)).Second = (utcDay 2019 2 28).Second ∧
        (NextDay (utcDay 2019 2 28)).Nanosecond = (utcDay 2019 2 28).Nanosecond ∧
        (NextDay (utcDay 2019 2 28)).loc = UTC ∧
        ((utcDay 2019 2 28).Day < daysIn (utcDay 2019 2 28).Year (utcDay 2019 2 28).Month →
          (NextDay (utcDay 2019 2 28)).Year = (utcDay 2019 2 28).Year ∧
            (NextDay (utcDay 2019 2 28)).Month = (utcDay 2019 2 28).Month ∧
            (NextDay (utcDay 2019 2 28)).Day = (utcDay 2019 2 28).Day + 1) ∧
        ((utcDay 2019 2 28).Day = daysIn (utcDay 2019 2 28).Year (utcDay 2019 2 28).Month →
          (utcDay 2019 2 28).Month < 12 →
          (NextDay (utcDay 2019 2 28)).Year = (utcDay 2019 2 28).Year ∧
            (NextDay (utcDay 2019 2 28)).Month = (utcDay 2019 2 28).Month + 1 ∧
            (NextDay (utcDay 2019 2 28)).Day = 1) ∧
        ((utcDay 2019 2 28).Day = daysIn (utcDay 2019 2 28).Year (utcDay 2019 2 28).Month →
          (utcDay 2019 2 28).Month = 12 →
          (NextDay (utcDay 2019 2 28)).Year = (utcDay 2019 2 28).Year + 1 ∧
            (NextDay (utcDay 2019 2 28)).Month = 1 ∧ (NextDay (utcDay 2019 2 28)).Day = 1)) ∧
      (NextDay (utcDay 2019 2 28)).ns = (utcDay 2019 3 1).ns ∧
      (NextDay (utcDay 2019 2 7)).ns = (utcDay 2019 2 8).ns :=
  ⟨rfl, C14_next_day (utcDay 2019 2 28) rfl, by decide, by decide⟩

/-- C15 (`daysInMonth` is a day count between 28 and 31).  On a call that gets
past the parse the month is January of year 0, and the value that `BillFor`
names `daysInMonth` is the number of hours from `firstDay` to `lastDay`,
`6544290765163579 / 2^43`, about 743.9997: not an integer, and not between 28
and 31. -/
theorem C15_days_in_month_is_hours :
    parseLiteral "%m" "%m" = .ok (Date 0 1 1 0 0 0 0 UTC) ∧
      Duration.Hours ((LastDayOfMonth (Date 0 1 1 0 0 0 0 UTC)).Sub
          (FirstDayOfMonth (Date 0 1 1 0 0 0 0 UTC)))
        = Float64.fin 6544290765163579 (-43) ∧
      (Float64.fin 6544290765163579 (-43)).toRat = some (6544290765163579 / 2 ^ 43) ∧
      (743 : ℚ) < 6544290765163579 / 2 ^ 43 ∧ (6544290765163579 / 2 ^ 43 : ℚ) < 744 := by
  refine ⟨rfl, by decide, ?_, by norm_num, by norm_num⟩
  simp only [Float64.toRat]
  norm_num

/-- C16, as stated, fails.  `LastDayOfMonth` is the start of the last second of
the month, so a UTC time half a second later, 28 February 2019 23:59:59.5, lies
after it.  And in a location whose clocks are set back across midnight of day
1 the bound fails by more: in `America/St_Johns` the instant 03:00 UTC of
1 November 2009 reads 31 October 23:30, and lies half an hour after
`LastDayOfMonth` of it. -/
theorem C16_after_last_day_of_month :
    (LastDayOfMonth (Date 2019 2 28 23 59 59 500000000 UTC)).Before
        (Date 2019 2 28 23 59 59 500000000 UTC) = true ∧
      (Time.mk 1257044400000000000 stJohns2009).Month = 10 ∧
      (Time.mk 1257044400000000000 stJohns2009).Day = 31 ∧
      (Time.mk 1257044400000000000 stJohns2009).Hour = 23 ∧
      (Time.mk 1257044400000000000 stJohns2009).Minute = 30 ∧
      ((LastDayOfMonth (Time.mk 1257044400000000000 stJohns2009)).Add Second).Before
        (Time.mk 1257044400000000000 stJohns2009) = true := by
  decide

/-- C16, amended.  For every time `d` in a location with a fixed offset (UTC or
a fixed zone), `d` is not before `FirstDayOfMonth d` and is before
`LastDayOfMonth d` plus one second; and `d` is not after `LastDayOfMonth d`
when `d` is a whole second. -/
theorem C16_month_bounds (d : Time) (o : Int) (h : d.loc.FixedOffset o) :
    d.Before (FirstDayOfMonth d) = false ∧
      d.Before ((LastDayOfMonth d).Add Second) = true ∧
      (d.Nanosecond = 0 → d.After (LastDayOfMonth d) = false) := by
  obtain ⟨h1, h2, h3, h4, h5, h6, h7, h8, h9⟩ := ns_fixed d o h
  rw [daysFromCivil_day] at h5
  have hl := LastDayOfMonth_fixed d o h
  rw [daysFromCivil_day] at hl
  rw [hl, FirstDayOfMonth_fixed d o h]
  simp only [Time.Before, Time.After, Time.Add, Second, decide_eq_false_iff_not,
    decide_eq_true_eq]
  refine ⟨by omega, by omega, fun hn => by omega⟩

/-- C16 amended, at the time of the doc comment, 7 February 2019 UTC. -/
theorem C16_month_bounds_witness :
    UTC.FixedOffset 0 ∧
      ((utcDay 2019 2 7).Before (FirstDayOfMonth (utcDay 2019 2 7)) = false ∧
        (utcDay 2019 2 7).Before ((LastDayOfMonth (utcDay 2019 2 7)).Add Second) = true ∧
        ((utcDay 2019 2 7).Nanosecond = 0 →
          (utcDay 2019 2 7).After (LastDayOfMonth (utcDay 2019 2 7)) = false)) :=
  ⟨fun _ => rfl, C16_month_bounds (utcDay 2019 2 7) 0 (fun _ => rfl)⟩

/-- C17 (a deactivation date outside daylight-saving time is not looked at).
Two calls of `BillFor` whose user lists differ only in the `DeactivatedOn`
values of users for whom that value is not in daylight-saving time, in the one
list as in the other, end in the same way and with the same amount. -/
theorem C17_deactivation_is_ignored (ym : String) (sub : Option Subscription)
    (us vs : List User) (h : List.Forall₂ sameButDeactivation us vs) :
    BillFor ym sub (some us) = BillFor ym sub (some vs) := by
  unfold BillFor
  cases parseLiteral "%m" ym with
  | error e => rfl
  | ok month =>
    cases sub with
    | none => rfl
    | some s =>
      simp only [billForMonth]
      rw [totalCostOf_congr _ _ _ _ _ us vs h]

/-- C17 for `Employee #1` of the doc comment: with the deactivation date
2022-04-10 and with none, the bill for the accepted month text is the same. -/
theorem C17_deactivation_is_ignored_witness :
    List.Forall₂ sameButDeactivation [employee1]
        [⟨1, "Employee #1", utcDay 2021 11 4, Time.zero, 1⟩] ∧
      BillFor "%m" (some subscription30) (some [employee1])
        = BillFor "%m" (some subscription30)
            (some [⟨1, "Employee #1", utcDay 2021 11 4, Time.zero, 1⟩]) :=
  ⟨List.Forall₂.cons ⟨rfl, rfl, rfl, rfl, Or.inr ⟨rfl, rfl⟩⟩ List.Forall₂.nil,
    C17_deactivation_is_ignored "%m" (some subscription30) _ _
      (List.Forall₂.cons ⟨rfl, rfl, rfl, rfl, Or.inr ⟨rfl, rfl⟩⟩ List.Forall₂.nil)⟩

/-- C18 (the billing period does not depend on the month argument).  When
`BillFor` returns an amount, its month argument is the text "%m", the parsed
month is 1 January of year 0 UTC, `firstDay` is that time and `lastDay` is
31 January of year 0, 23:59:59 UTC. -/
theorem C18_fixed_billing_month (ym : String) (sub : Option Subscription)
    (users : Option (List User)) (v : Float64) (h : BillFor ym sub users = .ok v) :
    ym = "%m" ∧ parseLiteral "%m" ym = .ok (Date 0 1 1 0 0 0 0 UTC) ∧
      FirstDayOfMonth (Date 0 1 1 0 0 0 0 UTC) = Date 0 1 1 0 0 0 0 UTC ∧
      LastDayOfMonth (Date 0 1 1 0 0 0 0 UTC) = Date 0 1 31 23 59 59 0 UTC ∧
      billForMonth (Date 0 1 1 0 0 0 0 UTC) sub users = .ok v := by
  have hym : ym = "%m" := by
    by_contra hne
    obtain ⟨err, he⟩ := parseLiteral_other ym hne
    rw [BillFor_of_parse_error ym err he sub users] at h
    cases h
  subst hym
  exact ⟨rfl, rfl, rfl, rfl, h⟩

/-- C18 at a call that returns: the text "%m" with no subscription. -/
theorem C18_fixed_billing_month_witness :
    BillFor "%m" none none = .ok 0 ∧
      ("%m" = "%m" ∧ parseLiteral "%m" "%m" = .ok (Date 0 1 1 0 0 0 0 UTC) ∧
        FirstDayOfMonth (Date 0 1 1 0 0 0 0 UTC) = Date 0 1 1 0 0 0 0 UTC ∧
        LastDayOfMonth (Date 0 1 1 0 0 0 0 UTC) = Date 0 1 31 23 59 59 0 UTC ∧
        billForMonth (Date 0 1 1 0 0 0 0 UTC) none none = .ok 0) :=
  ⟨rfl, C18_fixed_billing_month "%m" none none 0 rfl⟩

/-- C19 (the helpers across a month boundary).  For every UTC time `d`:
`LastDayOfMonth d` plus one second is `FirstDayOfMonth (NextDay (LastDayOfMonth
d))`; that time is day 1 of the month after the month of `d` (January of the
next year after December); and `LastDayOfMonth (FirstDayOfMonth d)` is
`LastDayOfMonth d`. -/
theorem C19_helpers_compose (d : Time) (h : d.loc = UTC) :
    (LastDayOfMonth d).Add Second = FirstDayOfMonth (NextDay (LastDayOfMonth d)) ∧
      (FirstDayOfMonth (NextDay (LastDayOfMonth d))).Day = 1 ∧
      (FirstDayOfMonth (NextDay (LastDayOfMonth d))).Month
        = (if d.Month = 12 then 1 else d.Month + 1) ∧
      (FirstDayOfMonth (NextDay (LastDayOfMonth d))).Year
        = (if d.Month = 12 then d.Year + 1 else d.Year) ∧
      LastDayOfMonth (FirstDayOfMonth d) = LastDayOfMonth d := by
  have hf : d.loc.FixedOffset 0 := by rw [h]; exact UTC_fixed
  obtain ⟨h1, h2, -⟩ := ns_fixed d 0 hf
  have hr := daysIn_range d.Year d.Month
  have hL := LastDayOfMonth_fixed d 0 hf
  have hLf : (LastDayOfMonth d).loc.FixedOffset 0 := by rw [hL]; exact hf
  have hLloc : (LastDayOfMonth d).loc = d.loc := by rw [hL]
  have hN := NextDay_fixed (LastDayOfMonth d) 0 hLf
  have hNf : (NextDay (LastDayOfMonth d)).loc.FixedOffset 0 := by rw [hN]; exact hLf
  have hNloc : (NextDay (LastDayOfMonth d)).loc = d.loc := by rw [hN]; exact hLloc
  -- the month after the month of `d`
  obtain ⟨y2, hy2⟩ : ∃ y2, y2 = if d.Month = 12 then d.Year + 1 else d.Year := ⟨_, rfl⟩
  obtain ⟨m2, hm2⟩ : ∃ m2, m2 = if d.Month = 12 then 1 else d.Month + 1 := ⟨_, rfl⟩
  have hb : daysFromCivil d.Year d.Month (daysIn d.Year d.Month) + 1
      = daysFromCivil y2 m2 1 := by
    rw [daysFromCivil_boundary d.Year d.Month h1 h2, hy2, hm2]
    split <;> rfl
  have hm21 : 1 ≤ m2 ∧ m2 ≤ 12 := by
    rw [hm2]; split <;> omega
  have hNns : NextDay (LastDayOfMonth d)
      = ⟨(daysFromCivil y2 m2 1 * 86400 + 86399 - 0) * 1000000000 + 0, d.loc⟩ := by
    rw [hN, hL]
    dsimp only
    congr 1
    omega
  obtain ⟨ny, nm, -⟩ :=
    fields_fixed d.loc 0 hf y2 m2 1 86399 0 hm21.1 hm21.2 (by decide)
      (by have := daysIn_range y2 m2; omega) (by decide) (by decide) (by decide) (by decide)
      (NextDay (LastDayOfMonth d)) hNns
  have hF := FirstDayOfMonth_fixed (NextDay (LastDayOfMonth d)) 0 hNf
  rw [ny, nm, hNloc] at hF
  obtain ⟨fy, fm, fd, -⟩ :=
    fields_fixed d.loc 0 hf y2 m2 1 0 0 hm21.1 hm21.2 (by decide)
      (by have := daysIn_range y2 m2; omega) (by decide) (by decide) (by decide) (by decide)
      (FirstDayOfMonth (NextDay (LastDayOfMonth d))) hF
  -- the first day of the month of `d`
  obtain ⟨gy, gm, -⟩ :=
    fields_fixed d.loc 0 hf d.Year d.Month 1 0 0 h1 h2 (by decide) (by omega) (by decide)
      (by decide) (by decide) (by decide) (FirstDayOfMonth d) (FirstDayOfMonth_fixed d 0 hf)
  have hGloc : (FirstDayOfMonth d).loc = d.loc := by rw [FirstDayOfMonth_fixed d 0 hf]
  have hGf : (FirstDayOfMonth d).loc.FixedOffset 0 := by rw [hGloc]; exact hf
  refine ⟨?_, fd, by rw [fm, hm2], by rw [fy, hy2], ?_⟩
  · rw [hF, hL]
    simp only [Time.Add, Second]
    congr 1
    omega
  · rw [LastDayOfMonth_fixed (FirstDayOfMonth d) 0 hGf, gy, gm, hGloc, hL]

/-- C19 at a time in December: 25 December 2019 UTC, where the month after is
January 2020. -/
theorem C19_helpers_compose_witness :
    (utcDay 2019 12 25).loc = UTC ∧
      ((LastDayOfMonth (utcDay 2019 12 25)).Add Second
          = FirstDayOfMonth (NextDay (LastDayOfMonth (utcDay 2019 12 25))) ∧
        (FirstDayOfMonth (NextDay (LastDayOfMonth (utcDay 2019 12 25)))).Day = 1 ∧
        (FirstDayOfMonth (NextDay (LastDayOfMonth (utcDay 2019 12 25)))).Month
          = (if (utcDay 2019 12 25).Month = 12 then 1 else (utcDay 2019 12 25).Month + 1) ∧
        (FirstDayOfMonth (NextDay (LastDayOfMonth (utcDay 2019 12 25)))).Year
          = (if (utcDay 2019 12 25).Month = 12 then (utcDay 2019 12 25).Year + 1
              else (utcDay 2019 12 25).Year) ∧
        LastDayOfMonth (FirstDayOfMonth (utcDay 2019 12 25))
          = LastDayOfMonth (utcDay 2019 12 25)) ∧
      (FirstDayOfMonth (NextDay (LastDayOfMonth (utcDay 2019 12 25)))).ns
        = (utcDay 2020 1 1).ns :=
  ⟨rfl, C19_helpers_compose (utcDay 2019 12 25) rfl, by decide⟩

end Challenge
